import Mathlib

/-!
Shallow embedding of the Zero-Music backend core: the Library Index
(`services.MusicScanner`, indexed variant) and the Range Streaming Engine
(`handlers.StreamHandler.StreamAudio` / `serveRange`), together with the
content-identifier function (`models.generateID`).

Strings from the Go source are modelled as lists of characters (`Str`),
machine integers (`int64`, `int`) as `Int`, byte slices as `List Nat`
(each element `< 256`), Go maps as functions into `Option`, and external
collaborators (the SHA-256 library call, the ID3 tag library, `os.Stat`
mod-times, the filesystem walk) as explicit oracle parameters.
-/

/-- Strings are modelled as lists of characters. -/
abbrev Str := List Char

/-- ASCII lower-casing of one character; models `strings.ToLower` on the
ASCII range actually exercised by extensions and formats. -/
def lowerChar (c : Char) : Char :=
  if 'A' ≤ c ∧ c ≤ 'Z' then Char.ofNat (c.toNat + 32) else c

/-- Models `strings.ToLower`. -/
def toLower (s : Str) : Str := s.map lowerChar

/-- The segment of `s` after the last occurrence of `sep`
(all of `s` when `sep` does not occur). -/
def takeAfterLast (sep : Char) (s : Str) : Str :=
  (s.reverse.takeWhile (fun c => c ≠ sep)).reverse

/-- Models `filepath.Ext`: the suffix starting at the final dot in the
final slash-separated element of the path; empty if there is no dot. -/
def filepathExt (p : Str) : Str :=
  let base := takeAfterLast '/' p
  if base.contains '.' then '.' :: takeAfterLast '.' base else []

/-- Models `filepath.Base` for the paths produced by a directory walk
(no trailing separators): the element after the last slash, `"."` for the
empty path. -/
def filepathBase (p : Str) : Str :=
  if p = [] then ['.'] else takeAfterLast '/' p

/-- Models `strings.TrimSuffix`. -/
def trimSuffix (s suffix : Str) : Str :=
  if suffix.isSuffixOf s then s.take (s.length - suffix.length) else s

/-- Models `strings.HasPrefix`: does `s` start with `pre`? -/
def startsWith : Str → Str → Bool
  | _, [] => true
  | [], _ :: _ => false
  | c :: cs, p :: ps => (c == p) && startsWith cs ps

/-- Models `strings.TrimPrefix`: drop `pre` when `s` starts with it,
otherwise return `s` unchanged. -/
def trimLeading (s pre : Str) : Str :=
  if startsWith s pre then s.drop pre.length else s

/-- Models `strings.Split` with a one-character separator. -/
def splitChar (sep : Char) : Str → List Str
  | [] => [[]]
  | c :: cs =>
    if c = sep then [] :: splitChar sep cs
    else
      match splitChar sep cs with
      | [] => [[c]]
      | g :: gs => (c :: g) :: gs

/-- The table `"0123456789abcdef"` used by `hex.EncodeToString`. -/
def hextable : Str := "0123456789abcdef".data

/-- Models `hex.EncodeToString` on a byte slice: each byte `b` becomes
`hextable[b/16]` then `hextable[b%16]`. -/
def hexEncode (bytes : List Nat) : Str :=
  bytes.flatMap (fun b => [hextable.getD (b / 16) '0', hextable.getD (b % 16) '0'])

/-- `models.SongIDLength`: the song id is the first 16 bytes of the hash. -/
def SongIDLength : Nat := 16

/-- Models `models.generateID`: the lowercase hex encoding of the first
`SongIDLength` (16) bytes of the SHA-256 of the file path.  The SHA-256
library call (`crypto/sha256`, an external collaborator) is passed in as
the oracle `sha`, assumed to return the 32-byte digest. -/
def generateID (sha : Str → List Nat) (filePath : Str) : Str :=
  hexEncode ((sha filePath).take SongIDLength)

/-- The character class of `models.ValidIDPattern` (`^[a-f0-9]{32}$`). -/
def isHexLower (c : Char) : Bool :=
  ('a' ≤ c && c ≤ 'f') || ('0' ≤ c && c ≤ '9')

/-- Models the regex match against `models.ValidIDPattern()`
(`^[a-f0-9]{32}$`): exactly 32 characters, each a lowercase hex digit. -/
def validID (id : Str) : Bool :=
  id.length == 32 && id.all isHexLower

/-- `models.Song`: times are modelled as integers, the `Duration` field
stays 0 as in the source (the tag library provides no duration). -/
structure Song where
  ID : Str
  Title : Str
  Artist : Str
  Album : Str
  Duration : Int
  FilePath : Str
  FileName : Str
  FileSize : Int
  AddedAt : Int
  Format : Str
deriving DecidableEq

/-- The metadata an ID3 tag read can yield (`tag.ReadFrom` result). -/
structure TagMeta where
  title : Str
  artist : Str
  album : Str
deriving DecidableEq

/-- The external oracles `models.NewSong` consults: the ID3 tag library
(`none` models an open or read failure) and `os.Stat` mod-times
(`none` models a stat failure, falling back to `time.Now()`). -/
structure MetaOracle where
  tags : Str → Option TagMeta
  modTime : Str → Option Int

/-- `"Unknown"`, the default artist and album. -/
def unknownStr : Str := ['U', 'n', 'k', 'n', 'o', 'w', 'n']

/-- The title after the tag read: a non-empty tag title overrides the
filename-derived default. -/
def tagTitle (baseTitle : Str) (m : Option TagMeta) : Str :=
  match m with
  | none => baseTitle
  | some mm => if mm.title = [] then baseTitle else mm.title

/-- The artist after the tag read. -/
def tagArtist (m : Option TagMeta) : Str :=
  match m with
  | none => unknownStr
  | some mm => if mm.artist = [] then unknownStr else mm.artist

/-- The album after the tag read. -/
def tagAlbum (m : Option TagMeta) : Str :=
  match m with
  | none => unknownStr
  | some mm => if mm.album = [] then unknownStr else mm.album

/-- Models `models.NewSong`: title defaults to the base name with the
extension trimmed, artist and album to `"Unknown"`, each overridden by a
non-empty tag value; `AddedAt` is the mod-time when `os.Stat` succeeds,
otherwise `now`; `Format` is the lower-cased extension. -/
def NewSong (sha : Str → List Nat) (meta : MetaOracle) (now : Int)
    (filePath : Str) (fileSize : Int) : Song :=
  { ID := generateID sha filePath
    Title := tagTitle (trimSuffix (filepathBase filePath) (filepathExt (filepathBase filePath)))
      (meta.tags filePath)
    Artist := tagArtist (meta.tags filePath)
    Album := tagAlbum (meta.tags filePath)
    Duration := 0
    FilePath := filePath
    FileName := filepathBase filePath
    FileSize := fileSize
    AddedAt := (meta.modTime filePath).getD now
    Format := toLower (filepathExt (filepathBase filePath)) }

/-! ## Library Index (`services.MusicScanner`, indexed variant) -/

/-- One invocation of the `filepath.Walk` callback: a regular file (with
its size), a directory, or an invocation carrying a walk error
(`err != nil`). -/
inductive WalkItem where
  | file (path : Str) (size : Int)
  | dir (path : Str)
  | fail
deriving DecidableEq

/-- The filesystem as the scanner observes it: whether `os.Stat` on the
root reports existence, and the sequence of walk-callback invocations a
traversal would produce. -/
structure ScanFS where
  rootExists : Bool
  walk : List WalkItem

/-- The errors `scanInternal` can return: the root directory missing, a
walk error (which also wraps a context cancellation surfaced through the
walk), or cooperative cancellation. -/
inductive ScanErr where
  | directoryNotFound
  | walkError
  | cancelled
deriving DecidableEq

/-- The fields of `services.MusicScanner` (indexed variant): the snapshot
slice `songs`, the map `songIndex`, the last scan time and the TTL.
The `sync.RWMutex` is a concurrency device with no sequential content. -/
structure ScannerState where
  directory : Str
  supportedFormats : List Str
  songs : List Song
  songIndex : Str → Option Song
  lastScan : Int
  cacheTTL : Int

/-- Models `services.NewMusicScanner`: an empty supported-format list
defaults to `[".mp3"]`, a non-positive TTL to 5 minutes; minutes are
converted to a duration (here: kept in minutes, one unit = one minute). -/
def NewMusicScanner (directory : Str) (supportedFormats : List Str)
    (cacheTTLMinutes : Int) : ScannerState :=
  { directory := directory
    supportedFormats :=
      if supportedFormats = [] then [['.', 'm', 'p', '3']] else supportedFormats
    songs := []
    songIndex := fun _ => none
    lastScan := 0
    cacheTTL := if cacheTTLMinutes ≤ 0 then 5 else cacheTTLMinutes }

/-- The extension test of the walk callback: the lower-cased extension
equals the lower-cased form of some supported format (the `break` makes
at most one append per file). -/
def extSupported (formats : List Str) (path : Str) : Bool :=
  formats.any (fun supported => toLower (filepathExt path) == toLower supported)

/-- The walk loop of `scanInternal`: visits the callback invocations in
order, checks the context before each one (`i` counts invocations, the
context is done from invocation `doneAt` on), skips directories, and for
each supported file appends a `Song` to the slice and inserts it into the
index.  Both accumulators are mutated in place in the source, so on an
error or cancellation the partial `songs`/`songIndex` are returned as the
new field values. -/
def walkLoop (sha : Str → List Nat) (meta : MetaOracle) (now : Int)
    (formats : List Str) (doneAt : Option Nat) :
    List WalkItem → Nat → List Song → (Str → Option Song) →
    (List Song × (Str → Option Song) × Option ScanErr)
  | [], _, songs, index => (songs, index, none)
  | item :: rest, i, songs, index =>
    if doneAt.any (fun n => n ≤ i) then (songs, index, some .cancelled)
    else
      match item with
      | .fail => (songs, index, some .walkError)
      | .dir _ => walkLoop sha meta now formats doneAt rest (i + 1) songs index
      | .file path size =>
        if extSupported formats path then
          let song := NewSong sha meta now path size
          walkLoop sha meta now formats doneAt rest (i + 1) (songs ++ [song])
            (fun id => if id = song.ID then some song else index id)
        else walkLoop sha meta now formats doneAt rest (i + 1) songs index

/-- Models `scanInternal` (write lock held by the caller): it first
resets `songs` and `songIndex` to empty, then checks the root exists,
then walks; `lastScan` is set to the current time only on success.  On
any failure the reset — and any partial appends — remain in the state. -/
def scanInternal (sha : Str → List Nat) (meta : MetaOracle)
    (st : ScannerState) (fs : ScanFS) (doneAt : Option Nat) (now : Int) :
    ScannerState × Except ScanErr (List Song) :=
  let st0 := { st with songs := [], songIndex := fun _ => none }
  if ¬ fs.rootExists then (st0, .error .directoryNotFound)
  else
    match walkLoop sha meta now st.supportedFormats doneAt fs.walk 0 []
        (fun _ => none) with
    | (songs, index, some e) =>
      ({ st0 with songs := songs, songIndex := index }, .error e)
    | (songs, index, none) =>
      ({ st0 with songs := songs, songIndex := index, lastScan := now },
       .ok songs)

/-- The cache-validity test of `Scan`: `time.Since(lastScan) < cacheTTL`
and a non-empty snapshot. -/
def cacheValid (st : ScannerState) (now : Int) : Prop :=
  now - st.lastScan < st.cacheTTL ∧ st.songs ≠ []

instance (st : ScannerState) (now : Int) : Decidable (cacheValid st now) :=
  inferInstanceAs (Decidable (_ ∧ _))

/-- Models `Scan`: under the read lock, return a copy of the cached
slice when the cache is valid; otherwise take the write lock, re-check
(the double-check is literal in the source; sequentially it repeats the
same test), and run `scanInternal`.  The returned slice is a fresh slice
header over the same `*Song` pointers (`make` + `copy`); under value
semantics the copy is the list itself — the sharing of the pointed-to
songs is analysed separately in the reference model below. -/
def Scan (sha : Str → List Nat) (meta : MetaOracle) (st : ScannerState)
    (fs : ScanFS) (doneAt : Option Nat) (now : Int) :
    ScannerState × Except ScanErr (List Song) :=
  if cacheValid st now then (st, .ok st.songs)
  else if cacheValid st now then (st, .ok st.songs)
  else scanInternal sha meta st fs doneAt now

/-- Models `Refresh`: unconditionally runs `scanInternal` under the
write lock, returning only the error. -/
def Refresh (sha : Str → List Nat) (meta : MetaOracle) (st : ScannerState)
    (fs : ScanFS) (doneAt : Option Nat) (now : Int) :
    ScannerState × Option ScanErr :=
  match scanInternal sha meta st fs doneAt now with
  | (st', .error e) => (st', some e)
  | (st', .ok _) => (st', none)

/-- Models `GetSongs`: a deep copy of the snapshot slice (each `Song`
struct is copied); under value semantics the result is the list itself. -/
def GetSongs (st : ScannerState) : List Song := st.songs

/-- Models `GetSongCount`. -/
def GetSongCount (st : ScannerState) : Nat := st.songs.length

/-- Models `GetSongByID`: an index lookup returning a copy of the found
song, `none` when absent. -/
def GetSongByID (st : ScannerState) (id : Str) : Option Song :=
  st.songIndex id

/-! ## Range Streaming Engine (`handlers.StreamHandler`) -/

/-- The decimal value of a digit string (base-10 accumulation). -/
def digitsFold (digits : Str) : Nat :=
  digits.foldl (fun acc d => acc * 10 + (d.toNat - 48)) 0

/-- The signed value of a digit string. -/
def digitsVal (neg : Bool) (digits : Str) : Int :=
  if neg then -(digitsFold digits : Int) else (digitsFold digits : Int)

/-- The digit phase of `strconv.ParseInt`: at least one character, all
decimal digits, value within the `int64` range. -/
def parseDigits (neg : Bool) (digits : Str) : Option Int :=
  if digits = [] then none
  else if digits.all (fun d => '0' ≤ d && d ≤ '9') then
    if -(2 ^ 63) ≤ digitsVal neg digits ∧ digitsVal neg digits ≤ 2 ^ 63 - 1 then
      some (digitsVal neg digits)
    else none
  else none

/-- Models `strconv.ParseInt(s, 10, 64)`: an optional sign, then at
least one decimal digit, the value within the `int64` range; `none`
models every error return. -/
def parseInt64 (s : Str) : Option Int :=
  match s with
  | [] => parseDigits false []
  | c :: rest =>
    if c = '-' then parseDigits true rest
    else if c = '+' then parseDigits false rest
    else parseDigits false (c :: rest)

/-- The `Content-Range` header values the engine emits, kept structural
(the source formats them with `fmt.Sprintf`). -/
inductive CRHeader where
  | satisfied (start stop size : Int)
  | unsatisfiable (size : Int)
deriving DecidableEq

/-- The observable outcome of `serveRange`: status, the emitted
`Content-Range` and `Content-Length` headers when set, and the bytes
written to the response body. -/
structure RangeResponse where
  status : Nat
  contentRange : Option CRHeader
  contentLength : Option Int
  body : List Nat
deriving DecidableEq

/-- The 400 Bad Request outcome of `serveRange` (a `c.JSON` error body,
no range headers, nothing streamed). -/
def bad400 : RangeResponse :=
  { status := 400, contentRange := none, contentLength := none, body := [] }

/-- The body of `serveRange` after the dash split produced exactly two
parts: an empty start part defaults to 0 and an empty end part to
`fileSize - 1`, non-empty parts must parse as non-negative integers
(400 otherwise); `start < 0 ∨ end ≥ fileSize ∨ start > end` yields 416
with `Content-Range: bytes */size` and no body; a length over
`maxRangeSize` yields 400; otherwise 206 with
`Content-Range: bytes start-end/size`, `Content-Length = end-start+1`,
and the bytes of the file from `start` through `end` (seek + `CopyN`). -/
def serveRangeParts (fileSize : Int) (content : List Nat) (p0 p1 : Str)
    (maxRangeSize : Int) : RangeResponse :=
  match (if p0 = [] then some 0 else parseInt64 p0) with
  | none => bad400
  | some start =>
    if p0 ≠ [] ∧ start < 0 then bad400
    else
      match (if p1 = [] then some (fileSize - 1) else parseInt64 p1) with
      | none => bad400
      | some stop =>
        if p1 ≠ [] ∧ stop < 0 then bad400
        else if start < 0 ∨ stop ≥ fileSize ∨ start > stop then
          { status := 416, contentRange := some (.unsatisfiable fileSize),
            contentLength := none, body := [] }
        else if stop - start + 1 > maxRangeSize then bad400
        else
          { status := 206, contentRange := some (.satisfied start stop fileSize),
            contentLength := some (stop - start + 1),
            body := (content.drop start.toNat).take (stop - start + 1).toNat }

/-- Models `serveRange`: trim the `bytes=` prefix, split on `-`, demand
exactly two parts (400 otherwise), then dispatch to the two-part body. -/
def serveRange (fileSize : Int) (content : List Nat) (rangeHeader : Str)
    (maxRangeSize : Int) : RangeResponse :=
  match splitChar '-' (trimLeading rangeHeader ['b', 'y', 't', 'e', 's', '=']) with
  | [p0, p1] => serveRangeParts fileSize content p0 p1 maxRangeSize
  | _ => bad400

/-- The result of `os.Stat` on a resolved path: not-existing, some other
stat error, or file info (directory flag and size). -/
inductive StatRes where
  | notExist
  | err
  | info (isDir : Bool) (size : Int)
deriving DecidableEq

/-- The filesystem as the stream handler observes it: the `filepath.Abs`
resolution oracle, `os.Stat`, whether `os.Open` succeeds, and the bytes
of the file. -/
structure HFS where
  abs : Str → Str
  stat : Str → StatRes
  openOk : Str → Bool
  content : Str → List Nat

/-- The observable outcome of `StreamAudio`: status, range headers and
body as in `RangeResponse`, plus whether the handler reached the index
scan/lookup (`didScan`) and whether it called `os.Open` (`didOpen`). -/
structure HResponse where
  status : Nat
  contentRange : Option CRHeader
  contentLength : Option Int
  body : List Nat
  didScan : Bool
  didOpen : Bool
deriving DecidableEq

/-- An error response from `StreamAudio` before the file is opened. -/
def hErr (status : Nat) (didScan : Bool) : HResponse :=
  { status := status, contentRange := none, contentLength := none,
    body := [], didScan := didScan, didOpen := false }

/-- Models `StreamAudio` (the `services.Scanner`-based handler): validate
the id against `^[a-f0-9]{32}$` (400), scan (500 on failure), linear
search for the song (404), resolve via `filepath.Abs`, require the music
root's absolute path as a string prefix (403), `os.Stat` the path (404 /
500), reject directories (403), open the file (500 on failure), then
serve the whole file (200) or dispatch to `serveRange` when a `Range`
header is present. -/
def StreamAudio (sha : Str → List Nat) (meta : MetaOracle)
    (st : ScannerState) (fs : ScanFS) (doneAt : Option Nat) (now : Int)
    (musicDirAbs : Str) (maxRangeSize : Int) (hfs : HFS)
    (id : Str) (rangeHeader : Str) : HResponse :=
  if ¬ validID id then hErr 400 false
  else
    match (Scan sha meta st fs doneAt now).2 with
    | .error _ => hErr 500 true
    | .ok songs =>
      match songs.find? (fun song => song.ID == id) with
      | none => hErr 404 true
      | some song =>
        let cleanPath := hfs.abs song.FilePath
        if ¬ startsWith cleanPath musicDirAbs then hErr 403 true
        else
          match hfs.stat cleanPath with
          | .notExist => hErr 404 true
          | .err => hErr 500 true
          | .info isDir fileSize =>
            if isDir then hErr 403 true
            else if ¬ hfs.openOk cleanPath then
              { hErr 500 true with didOpen := true }
            else if rangeHeader ≠ [] then
              let r := serveRange fileSize (hfs.content cleanPath) rangeHeader
                maxRangeSize
              { status := r.status, contentRange := r.contentRange,
                contentLength := r.contentLength, body := r.body,
                didScan := true, didOpen := true }
            else
              { status := 200, contentRange := none,
                contentLength := some fileSize,
                body := hfs.content cleanPath, didScan := true, didOpen := true }

/-! ## Reference model of the copy discipline

The snapshot holds `*Song` pointers.  `Scan`'s cache-hit path copies the
slice header only (`make` + `copy` over `[]*Song`), so the returned slice
shares the pointed-to `Song` structs with the cache; `GetSongs` and
`GetSongByID` copy the structs themselves (`copiedSong := *song`).  To
settle the defensive-copy claim this model makes the pointers explicit:
a heap is a list of `Song` structs and a reference is an index into it. -/

/-- A `*Song` pointer. -/
abbrev Ref := Nat

/-- Apply `f` to the element at index `i` (no change when out of range). -/
def updateAt {α : Type} : Nat → (α → α) → List α → List α
  | _, _, [] => []
  | 0, f, x :: xs => f x :: xs
  | n + 1, f, x :: xs => x :: updateAt n f xs

/-- The heap of allocated `Song` structs; a `Ref` is an index. -/
structure Heap where
  data : List Song
deriving DecidableEq

/-- Dereference a pointer. -/
def Heap.read (h : Heap) (r : Ref) : Option Song := h.data.get? r

/-- Mutate one field of the struct behind a pointer, as a caller holding
the pointer can do (`song.Title = ...`). -/
def Heap.setTitle (h : Heap) (r : Ref) (t : Str) : Heap :=
  { data := updateAt r (fun s => { s with Title := t }) h.data }

/-- The scanner's snapshot as the Go runtime sees it: a slice of
pointers and the id-to-pointer map. -/
structure RefState where
  songRefs : List Ref
  songIndex : Str → Option Ref

/-- `Scan`'s cache-hit return: `make([]*models.Song, len(s.songs))` then
`copy` — a fresh slice of the same pointers. -/
def scanCacheHitRefs (st : RefState) : List Ref := st.songRefs

/-- One step of `GetSongs`: dereference the pointer and, when non-nil,
allocate a copy of the struct and hand out the fresh pointer. -/
def getSongsStep (acc : Heap × List Ref) (r : Ref) : Heap × List Ref :=
  match acc.1.read r with
  | none => acc
  | some s => ({ data := acc.1.data ++ [s] }, acc.2 ++ [acc.1.data.length])

/-- `GetSongs`: for each pointer in the snapshot, allocate a copy of the
struct and return the fresh pointer (`copiedSong := *song`). -/
def getSongsRefs (h : Heap) (st : RefState) : Heap × List Ref :=
  st.songRefs.foldl getSongsStep (h, [])

/-- The titles of the internal snapshot as a later `list` observes them. -/
def internalTitles (h : Heap) (st : RefState) : List (Option Str) :=
  st.songRefs.map (fun r => (h.read r).map Song.Title)

/-- The title a later `lookup(id)` observes. -/
def lookupTitle (h : Heap) (st : RefState) (id : Str) : Option Str :=
  (st.songIndex id).bind (fun r => (h.read r).map Song.Title)

/-! ## Derived notions used by the statements -/

/-- Shorthand for writing modelled strings with string literals. -/
def str (s : String) : Str := s.data

/-- The files a walk presents whose extension passes the scanner's
filter, in walk order, with their sizes. -/
def matchedFiles (formats : List Str) (items : List WalkItem) : List (Str × Int) :=
  items.filterMap (fun item =>
    match item with
    | .file p sz => if extSupported formats p then some (p, sz) else none
    | _ => none)

/-- The precondition of the consistency claim: no two indexed paths share
the same truncated-hash id. -/
def DistinctIds (sha : Str → List Nat) (formats : List Str)
    (items : List WalkItem) : Prop :=
  ((matchedFiles formats items).map (fun f => generateID sha f.1)).Pairwise (· ≠ ·)

/-- Mutual consistency of the snapshot sequence and the id map: every id
in the map occurs exactly once in the sequence, and every entry of the
sequence is mapped from its id. -/
def MutuallyConsistent (st : ScannerState) : Prop :=
  (∀ id s, st.songIndex id = some s →
    st.songs.countP (fun x => decide (x.ID = id)) = 1) ∧
  (∀ s ∈ st.songs, st.songIndex s.ID = some s)

/-- Invariant carried through the walk loop: the accumulated sequence and
map agree and the sequence's ids are pairwise distinct. -/
def ConsPair (songs : List Song) (index : Str → Option Song) : Prop :=
  (∀ s ∈ songs, index s.ID = some s) ∧
  (∀ id s, index id = some s → s ∈ songs ∧ s.ID = id) ∧
  songs.Pairwise (fun a b => a.ID ≠ b.ID)

/-! ## Helper lemmas -/

theorem splitChar_of_not_mem {sep : Char} {s : Str} (h : sep ∉ s) :
    splitChar sep s = [s] := by
  induction s with
  | nil => rfl
  | cons c cs ih =>
    have hc : c ≠ sep := fun hc => h (hc ▸ List.mem_cons_self c cs)
    have hcs : sep ∉ cs := fun hm => h (List.mem_cons_of_mem c hm)
    simp only [splitChar, if_neg hc, ih hcs]

theorem splitChar_ne_nil (sep : Char) (s : Str) : splitChar sep s ≠ [] := by
  cases s with
  | nil => simp [splitChar]
  | cons c cs =>
    unfold splitChar
    split
    · simp
    · split <;> simp

theorem splitChar_cons (sep c : Char) (cs : Str) :
    splitChar sep (c :: cs) =
      if c = sep then [] :: splitChar sep cs
      else
        match splitChar sep cs with
        | [] => [[c]]
        | g :: gs => (c :: g) :: gs := rfl

theorem splitChar_append_sep {sep : Char} {a b : Str} (h : sep ∉ a) :
    splitChar sep (a ++ sep :: b) = a :: splitChar sep b := by
  induction a with
  | nil => simp [splitChar]
  | cons c cs ih =>
    have hc : c ≠ sep := fun hc => h (hc ▸ List.mem_cons_self c cs)
    have hcs : sep ∉ cs := fun hm => h (List.mem_cons_of_mem c hm)
    rw [List.cons_append, splitChar_cons, if_neg hc, ih hcs]

theorem startsWith_append (pre rest : Str) :
    startsWith (pre ++ rest) pre = true := by
  induction pre with
  | nil => cases rest <;> rfl
  | cons p ps ih => simp [startsWith, ih]

theorem trimLeading_append (pre rest : Str) :
    trimLeading (pre ++ rest) pre = rest := by
  rw [trimLeading, if_pos (startsWith_append pre rest)]
  exact List.drop_left pre rest

theorem parseDigits_false_eq {digits : Str} {v : Int}
    (h : parseDigits false digits = some v) : v = (digitsFold digits : Int) := by
  unfold parseDigits at h
  split at h
  · simp at h
  · split at h
    · split at h
      · rw [Option.some.injEq] at h
        rw [← h]
        rfl
      · simp at h
    · simp at h

theorem parseDigits_false_nonneg {digits : Str} {v : Int}
    (h : parseDigits false digits = some v) : 0 ≤ v := by
  rw [parseDigits_false_eq h]
  exact Int.ofNat_nonneg _

theorem parseInt64_nonneg {s : Str} {v : Int} (hdash : '-' ∉ s)
    (h : parseInt64 s = some v) : 0 ≤ v := by
  cases s with
  | nil => exact parseDigits_false_nonneg h
  | cons c rest =>
    have hc : c ≠ '-' := fun hc => hdash (hc ▸ List.mem_cons_self c rest)
    rw [show parseInt64 (c :: rest) =
        (if c = '-' then parseDigits true rest
         else if c = '+' then parseDigits false rest
         else parseDigits false (c :: rest)) from rfl] at h
    rw [if_neg hc] at h
    by_cases hplus : c = '+'
    · rw [if_pos hplus] at h
      exact parseDigits_false_nonneg h
    · rw [if_neg hplus] at h
      exact parseDigits_false_nonneg h

theorem hexEncode_length (bs : List Nat) :
    (hexEncode bs).length = 2 * bs.length := by
  induction bs with
  | nil => rfl
  | cons b bs ih =>
    have hsplit : hexEncode (b :: bs) =
        [hextable.getD (b / 16) '0', hextable.getD (b % 16) '0'] ++ hexEncode bs := rfl
    rw [hsplit, List.length_append, ih, List.length_cons]
    simp
    ring

theorem isHexLower_hextable : ∀ n < 16, isHexLower (hextable.getD n '0') = true := by
  decide

theorem hexEncode_mem {bs : List Nat} (hb : ∀ b ∈ bs, b < 256) :
    ∀ c ∈ hexEncode bs, isHexLower c = true := by
  intro c hc
  simp only [hexEncode, List.mem_flatMap] at hc
  obtain ⟨b, hbmem, hcmem⟩ := hc
  have h256 := hb b hbmem
  have hhi : b / 16 < 16 := by omega
  have hlo : b % 16 < 16 := by omega
  simp only [List.mem_cons, List.not_mem_nil, or_false] at hcmem
  rcases hcmem with h | h
  · exact h ▸ isHexLower_hextable _ hhi
  · exact h ▸ isHexLower_hextable _ hlo

theorem updateAt_get?_ne {α : Type} (f : α → α) :
    ∀ (l : List α) (i j : Nat), i ≠ j → (updateAt i f l).get? j = l.get? j := by
  intro l
  induction l with
  | nil => intro i j _; cases i <;> rfl
  | cons x xs ih =>
    intro i j hij
    cases i with
    | zero =>
      cases j with
      | zero => exact absurd rfl hij
      | succ k => rfl
    | succ n =>
      cases j with
      | zero => rfl
      | succ k =>
        show (updateAt n f xs).get? k = xs.get? k
        exact ih n k (fun he => hij (by rw [he]))

theorem getSongsRefs_aux :
    ∀ (l : List Ref) (hp : Heap) (acc : List Ref),
    (∃ ext, (l.foldl getSongsStep (hp, acc)).1.data = hp.data ++ ext) ∧
      ∀ r ∈ (l.foldl getSongsStep (hp, acc)).2, r ∈ acc ∨ hp.data.length ≤ r := by
  intro l
  induction l with
  | nil =>
    intro hp acc
    exact ⟨⟨[], by simp⟩, fun r hr => Or.inl hr⟩
  | cons r0 l ih =>
    intro hp acc
    simp only [List.foldl_cons]
    rcases hread : (hp.read r0) with _ | s
    · have hstep : getSongsStep (hp, acc) r0 = (hp, acc) := by
        simp [getSongsStep, hread]
      rw [hstep]
      exact ih hp acc
    · have hstep : getSongsStep (hp, acc) r0 =
          ({ data := hp.data ++ [s] }, acc ++ [hp.data.length]) := by
        simp [getSongsStep, hread]
      rw [hstep]
      obtain ⟨⟨ext2, hext2⟩, hrefs⟩ := ih { data := hp.data ++ [s] } (acc ++ [hp.data.length])
      refine ⟨⟨[s] ++ ext2, by rw [hext2]; simp⟩, fun r hr => ?_⟩
      rcases hrefs r hr with hin | hge
      · rcases List.mem_append.mp hin with h | h
        · exact Or.inl h
        · simp only [List.mem_singleton] at h
          exact Or.inr (le_of_eq h.symm)
      · simp only [List.length_append, List.length_singleton] at hge
        exact Or.inr (by omega)

theorem NewSong_ID (sha : Str → List Nat) (meta : MetaOracle) (now : Int)
    (p : Str) (sz : Int) : (NewSong sha meta now p sz).ID = generateID sha p := rfl

theorem countP_id_eq_one {l : List Song} {s : Song}
    (hp : l.Pairwise (fun a b => a.ID ≠ b.ID)) (hmem : s ∈ l) :
    l.countP (fun x => decide (x.ID = s.ID)) = 1 := by
  induction l with
  | nil => cases hmem
  | cons a l ih =>
    rw [List.pairwise_cons] at hp
    rcases List.mem_cons.mp hmem with heq | hmem'
    · subst heq
      rw [List.countP_cons]
      have hzero : l.countP (fun x => decide (x.ID = s.ID)) = 0 := by
        rw [List.countP_eq_zero]
        intro x hx
        simp only [decide_eq_true_eq]
        exact fun he => hp.1 x hx he.symm
      simp [hzero]
    · rw [List.countP_cons]
      have hne : a.ID ≠ s.ID := hp.1 s hmem'
      simp only [decide_eq_true_eq, hne, if_false]
      simpa using ih hp.2 hmem'

theorem walkLoop_nil (sha : Str → List Nat) (meta : MetaOracle) (now : Int)
    (formats : List Str) (doneAt : Option Nat) (i : Nat) (songs : List Song)
    (index : Str → Option Song) :
    walkLoop sha meta now formats doneAt [] i songs index = (songs, index, none) := rfl

theorem walkLoop_cons (sha : Str → List Nat) (meta : MetaOracle) (now : Int)
    (formats : List Str) (doneAt : Option Nat) (item : WalkItem)
    (rest : List WalkItem) (i : Nat) (songs : List Song)
    (index : Str → Option Song) :
    walkLoop sha meta now formats doneAt (item :: rest) i songs index =
      if doneAt.any (fun n => n ≤ i) then (songs, index, some .cancelled)
      else
        match item with
        | .fail => (songs, index, some .walkError)
        | .dir _ => walkLoop sha meta now formats doneAt rest (i + 1) songs index
        | .file path size =>
          if extSupported formats path then
            walkLoop sha meta now formats doneAt rest (i + 1)
              (songs ++ [NewSong sha meta now path size])
              (fun id => if id = (NewSong sha meta now path size).ID then
                some (NewSong sha meta now path size) else index id)
          else walkLoop sha meta now formats doneAt rest (i + 1) songs index := rfl

theorem matchedFiles_cons_dir (formats : List Str) (p : Str)
    (items : List WalkItem) :
    matchedFiles formats (.dir p :: items) = matchedFiles formats items := by
  simp [matchedFiles]

theorem matchedFiles_cons_fail (formats : List Str) (items : List WalkItem) :
    matchedFiles formats (.fail :: items) = matchedFiles formats items := by
  simp [matchedFiles]

theorem matchedFiles_cons_file_pos {formats : List Str} {p : Str} (sz : Int)
    {items : List WalkItem} (h : extSupported formats p = true) :
    matchedFiles formats (.file p sz :: items) =
      (p, sz) :: matchedFiles formats items := by
  simp [matchedFiles, h]

theorem matchedFiles_cons_file_neg {formats : List Str} {p : Str} (sz : Int)
    {items : List WalkItem} (h : ¬ extSupported formats p = true) :
    matchedFiles formats (.file p sz :: items) = matchedFiles formats items := by
  simp [matchedFiles, h]

theorem walkLoop_consPair (sha : Str → List Nat) (meta : MetaOracle) (now : Int)
    (formats : List Str) (doneAt : Option Nat) :
    ∀ (items : List WalkItem) (i : Nat) (songs : List Song)
      (index : Str → Option Song),
    ConsPair songs index →
    (songs.map Song.ID ++
      (matchedFiles formats items).map (fun f => generateID sha f.1)).Pairwise (· ≠ ·) →
    ConsPair (walkLoop sha meta now formats doneAt items i songs index).1
      (walkLoop sha meta now formats doneAt items i songs index).2.1 := by
  intro items
  induction items with
  | nil => intro i songs index hcp _; exact hcp
  | cons item rest ih =>
    intro i songs index hcp hpw
    rw [walkLoop_cons]
    by_cases hcan : (doneAt.any (fun n => n ≤ i)) = true
    · rw [if_pos hcan]; exact hcp
    · rw [if_neg hcan]
      cases item with
      | fail => exact hcp
      | dir p =>
        rw [matchedFiles_cons_dir] at hpw
        exact ih (i + 1) songs index hcp hpw
      | file p sz =>
        dsimp only
        by_cases hsup : extSupported formats p = true
        · rw [if_pos hsup]
          rw [matchedFiles_cons_file_pos sz hsup] at hpw
          have hnotin : ∀ s ∈ songs, s.ID ≠ (NewSong sha meta now p sz).ID := by
            intro s hs
            rw [NewSong_ID]
            exact (List.pairwise_append.mp hpw).2.2 s.ID
              (List.mem_map_of_mem _ hs)
              (generateID sha p) (by simp)
          have hcp' : ConsPair (songs ++ [NewSong sha meta now p sz])
              (fun id => if id = (NewSong sha meta now p sz).ID then
                some (NewSong sha meta now p sz) else index id) := by
            obtain ⟨h1, h2, h3⟩ := hcp
            refine ⟨?_, ?_, ?_⟩
            · intro s hs
              rcases List.mem_append.mp hs with hs' | hs'
              · have hne : s.ID ≠ (NewSong sha meta now p sz).ID := hnotin s hs'
                simp only [if_neg hne]
                exact h1 s hs'
              · simp only [List.mem_singleton] at hs'
                subst hs'
                simp
            · intro id s hidx
              simp only [] at hidx
              by_cases hideq : id = (NewSong sha meta now p sz).ID
              · rw [if_pos hideq] at hidx
                rw [Option.some.injEq] at hidx
                subst hidx
                exact ⟨by simp, hideq.symm⟩
              · rw [if_neg hideq] at hidx
                obtain ⟨hmem, hID⟩ := h2 id s hidx
                exact ⟨List.mem_append.mpr (Or.inl hmem), hID⟩
            · rw [List.pairwise_append]
              refine ⟨h3, List.pairwise_singleton _ _, fun a ha b hb => ?_⟩
              simp only [List.mem_singleton] at hb
              subst hb
              exact hnotin a ha
          have hpw' : ((songs ++ [NewSong sha meta now p sz]).map Song.ID ++
              (matchedFiles formats rest).map (fun f => generateID sha f.1)).Pairwise
                (· ≠ ·) := by
            rw [List.map_append, List.append_assoc]
            simpa [NewSong_ID] using hpw
          exact ih (i + 1) _ _ hcp' hpw'
        · rw [if_neg hsup]
          rw [matchedFiles_cons_file_neg sz hsup] at hpw
          exact ih (i + 1) songs index hcp hpw

theorem walkLoop_ok_songs (sha : Str → List Nat) (meta : MetaOracle) (now : Int)
    (formats : List Str) (doneAt : Option Nat) :
    ∀ (items : List WalkItem) (i : Nat) (songs : List Song)
      (index : Str → Option Song) (songs' : List Song)
      (index' : Str → Option Song),
    walkLoop sha meta now formats doneAt items i songs index =
      (songs', index', none) →
    songs' = songs ++
      (matchedFiles formats items).map (fun f => NewSong sha meta now f.1 f.2) := by
  intro items
  induction items with
  | nil =>
    intro i songs index songs' index' h
    rw [walkLoop_nil, Prod.mk.injEq] at h
    simp [← h.1, matchedFiles]
  | cons item rest ih =>
    intro i songs index songs' index' h
    rw [walkLoop_cons] at h
    by_cases hcan : (doneAt.any (fun n => n ≤ i)) = true
    · rw [if_pos hcan, Prod.mk.injEq, Prod.mk.injEq] at h
      exact absurd h.2.2 (by simp)
    · rw [if_neg hcan] at h
      cases item with
      | fail =>
        rw [Prod.mk.injEq, Prod.mk.injEq] at h
        exact absurd h.2.2 (by simp)
      | dir p =>
        rw [matchedFiles_cons_dir]
        exact ih (i + 1) songs index songs' index' h
      | file p sz =>
        dsimp only at h
        by_cases hsup : extSupported formats p = true
        · rw [if_pos hsup] at h
          rw [matchedFiles_cons_file_pos sz hsup]
          have := ih (i + 1) _ _ songs' index' h
          rw [this]
          simp
        · rw [if_neg hsup] at h
          rw [matchedFiles_cons_file_neg sz hsup]
          exact ih (i + 1) songs index songs' index' h

/-! ## Claims -/

/-- C8: for every file path `p`, the content identifier equals the
lowercase hex encoding of the first 16 bytes of SHA-256 of `p`, is a
32-character lowercase hex string, and repeated calls with the same `p`
return the same string.  The SHA-256 digest (external library) is any
oracle returning at least 16 bytes, each a byte value. -/
theorem spec_C8_generate_id (sha : Str → List Nat) (p : Str)
    (hlen : 16 ≤ (sha p).length) (hbytes : ∀ b ∈ sha p, b < 256) :
    generateID sha p = hexEncode ((sha p).take 16) ∧
    (generateID sha p).length = 32 ∧
    (∀ c ∈ generateID sha p, isHexLower c = true) ∧
    generateID sha p = generateID sha p := by
  refine ⟨rfl, ?_, ?_, rfl⟩
  · show (hexEncode ((sha p).take SongIDLength)).length = 32
    rw [hexEncode_length, List.length_take]
    have : SongIDLength = 16 := rfl
    omega
  · intro c hc
    refine hexEncode_mem (fun b hb => hbytes b (List.mem_of_mem_take hb)) c hc

/-- Witness for C8 at a concrete path and a concrete 32-byte digest. -/
theorem spec_C8_generate_id_witness :
    generateID (fun _ => List.range 32) (str "/music/a.mp3") =
      hexEncode ((List.range 32).take 16) ∧
    (generateID (fun _ => List.range 32) (str "/music/a.mp3")).length = 32 := by
  have h := spec_C8_generate_id (fun _ => List.range 32) (str "/music/a.mp3")
    (by decide) (by decide)
  exact ⟨h.1, h.2.1⟩

/-- C3: for every streaming request whose identifier is not exactly 32
lowercase hex characters, the handler returns 400 before any index scan,
lookup, path resolution, or file access: the response is the constant
bad-request response with `didScan = false` and `didOpen = false`,
independent of the index and the filesystem. -/
theorem spec_C3_invalid_id_rejected (sha : Str → List Nat) (meta : MetaOracle)
    (st : ScannerState) (fs : ScanFS) (doneAt : Option Nat) (now : Int)
    (musicDirAbs : Str) (maxRangeSize : Int) (hfs : HFS) (id rangeHeader : Str)
    (h : ¬ validID id = true) :
    StreamAudio sha meta st fs doneAt now musicDirAbs maxRangeSize hfs id
      rangeHeader =
      { status := 400, contentRange := none, contentLength := none, body := [],
        didScan := false, didOpen := false } := by
  unfold StreamAudio
  rw [if_pos h]
  rfl

/-- Witness for C3: a path-traversal-shaped identifier is rejected with
400 before the scanner or the filesystem is consulted. -/
theorem spec_C3_invalid_id_rejected_witness :
    StreamAudio (fun _ => List.range 32) ⟨fun _ => none, fun _ => none⟩
      (NewMusicScanner (str "/m") [] 5) ⟨true, []⟩ none 0 (str "/m") 100
      ⟨fun p => p, fun _ => .info false 10, fun _ => true, fun _ => []⟩
      (str "../../etc/passwd") [] =
      { status := 400, contentRange := none, contentLength := none, body := [],
        didScan := false, didOpen := false } :=
  spec_C3_invalid_id_rejected _ _ _ _ _ _ _ _ _ _ _ (by decide)

/-- C6 counterexample: when the first scan produces an EMPTY snapshot,
a second scan inside the TTL window re-walks (here it finds a new file)
and updates the last-scan timestamp, so the claim as stated — which
requires only that the first snapshot be younger than the TTL — fails:
the entry sets differ and the timestamp changes from 10 to 12. -/
theorem spec_C6_ttl_idempotence_counterexample :
    (Scan (fun _ => List.range 32) ⟨fun _ => none, fun _ => none⟩
      (NewMusicScanner (str "/m") [] 30) ⟨true, []⟩ none 10).1.lastScan = 10 ∧
    (Scan (fun _ => List.range 32) ⟨fun _ => none, fun _ => none⟩
      (NewMusicScanner (str "/m") [] 30) ⟨true, []⟩ none 10).2 = .ok [] ∧
    (Scan (fun _ => List.range 32) ⟨fun _ => none, fun _ => none⟩
      ((Scan (fun _ => List.range 32) ⟨fun _ => none, fun _ => none⟩
        (NewMusicScanner (str "/m") [] 30) ⟨true, []⟩ none 10).1)
      ⟨true, [.file (str "/m/b.mp3") 3]⟩ none 12).1.lastScan = 12 ∧
    (Scan (fun _ => List.range 32) ⟨fun _ => none, fun _ => none⟩
      ((Scan (fun _ => List.range 32) ⟨fun _ => none, fun _ => none⟩
        (NewMusicScanner (str "/m") [] 30) ⟨true, []⟩ none 10).1)
      ⟨true, [.file (str "/m/b.mp3") 3]⟩ none 12).2 =
      .ok [NewSong (fun _ => List.range 32) ⟨fun _ => none, fun _ => none⟩ 12
        (str "/m/b.mp3") 3] ∧
    [NewSong (fun _ => List.range 32) ⟨fun _ => none, fun _ => none⟩ 12
      (str "/m/b.mp3") 3] ≠ ([] : List Song) ∧
    (12 : Int) ≠ 10 :=
  ⟨rfl, rfl, rfl, rfl, by decide, by decide⟩

/-- C6 (amended): two scans within the TTL window return identical entry
sets without re-walking, PROVIDED the cached snapshot is non-empty: a
cache-valid scan returns the state unchanged (so the last-scan timestamp
is unchanged) together with the cached entry list, for every filesystem,
i.e. without consulting the walk at all. -/
theorem spec_C6_cache_hit (sha : Str → List Nat) (meta : MetaOracle)
    (st : ScannerState) (fs : ScanFS) (doneAt : Option Nat) (now : Int)
    (hage : now - st.lastScan < st.cacheTTL) (hne : st.songs ≠ []) :
    Scan sha meta st fs doneAt now = (st, .ok st.songs) := by
  have hv : cacheValid st now := ⟨hage, hne⟩
  unfold Scan
  rw [if_pos hv]

/-- Witness for C6 at a concrete populated scanner two minutes after its
last scan. -/
theorem spec_C6_cache_hit_witness :
    Scan (fun _ => List.range 32) ⟨fun _ => none, fun _ => none⟩
      ⟨str "/m", [str ".mp3"],
        [⟨str "aa", str "t", str "a", str "b", 0, str "/m/a.mp3",
          str "a.mp3", 5, 0, str ".mp3"⟩],
        fun _ => none, 100, 5⟩
      ⟨true, [.fail]⟩ none 102 =
      (⟨str "/m", [str ".mp3"],
        [⟨str "aa", str "t", str "a", str "b", 0, str "/m/a.mp3",
          str "a.mp3", 5, 0, str ".mp3"⟩],
        fun _ => none, 100, 5⟩,
       .ok [⟨str "aa", str "t", str "a", str "b", 0, str "/m/a.mp3",
          str "a.mp3", 5, 0, str ".mp3"⟩]) :=
  spec_C6_cache_hit _ _ _ _ _ _ (by decide) (by decide)

/-- C1: demonstration that a failing scan does NOT leave the previous
snapshot observable.  `scanInternal` resets `songs` and `songIndex`
before validating the root and builds the new snapshot in place, so:
after a populated scan (one song), a `Refresh` against a missing root
returns `DirectoryNotFound` but wipes the snapshot (list and count are
empty afterwards), and a `Refresh` whose walk fails after one new file
returns `WalkError` but leaves that partially built snapshot observable
through list and lookup.  Both outcomes contradict the claim. -/
theorem spec_C1_failed_scan_destroys_snapshot :
    GetSongCount (Scan (fun _ => List.range 32) ⟨fun _ => none, fun _ => none⟩
        (NewMusicScanner (str "/m") [] 5)
        ⟨true, [.dir (str "/m"), .file (str "/m/a.mp3") 5]⟩ none 100).1 = 1 ∧
    (Refresh (fun _ => List.range 32) ⟨fun _ => none, fun _ => none⟩
        (Scan (fun _ => List.range 32) ⟨fun _ => none, fun _ => none⟩
          (NewMusicScanner (str "/m") [] 5)
          ⟨true, [.dir (str "/m"), .file (str "/m/a.mp3") 5]⟩ none 100).1
        ⟨false, []⟩ none 200).2 = some .directoryNotFound ∧
    GetSongs (Refresh (fun _ => List.range 32) ⟨fun _ => none, fun _ => none⟩
        (Scan (fun _ => List.range 32) ⟨fun _ => none, fun _ => none⟩
          (NewMusicScanner (str "/m") [] 5)
          ⟨true, [.dir (str "/m"), .file (str "/m/a.mp3") 5]⟩ none 100).1
        ⟨false, []⟩ none 200).1 = [] ∧
    (Refresh (fun _ => List.range 32) ⟨fun _ => none, fun _ => none⟩
        (Scan (fun _ => List.range 32) ⟨fun _ => none, fun _ => none⟩
          (NewMusicScanner (str "/m") [] 5)
          ⟨true, [.dir (str "/m"), .file (str "/m/a.mp3") 5]⟩ none 100).1
        ⟨true, [.file (str "/m/b.mp3") 3, .fail]⟩ none 300).2 =
      some .walkError ∧
    GetSongs (Refresh (fun _ => List.range 32) ⟨fun _ => none, fun _ => none⟩
        (Scan (fun _ => List.range 32) ⟨fun _ => none, fun _ => none⟩
          (NewMusicScanner (str "/m") [] 5)
          ⟨true, [.dir (str "/m"), .file (str "/m/a.mp3") 5]⟩ none 100).1
        ⟨true, [.file (str "/m/b.mp3") 3, .fail]⟩ none 300).1 =
      [NewSong (fun _ => List.range 32) ⟨fun _ => none, fun _ => none⟩ 300
        (str "/m/b.mp3") 3] ∧
    GetSongByID (Refresh (fun _ => List.range 32) ⟨fun _ => none, fun _ => none⟩
        (Scan (fun _ => List.range 32) ⟨fun _ => none, fun _ => none⟩
          (NewMusicScanner (str "/m") [] 5)
          ⟨true, [.dir (str "/m"), .file (str "/m/a.mp3") 5]⟩ none 100).1
        ⟨true, [.file (str "/m/b.mp3") 3, .fail]⟩ none 300).1
      (generateID (fun _ => List.range 32) (str "/m/b.mp3")) =
      some (NewSong (fun _ => List.range 32) ⟨fun _ => none, fun _ => none⟩ 300
        (str "/m/b.mp3") 3) ∧
    [NewSong (fun _ => List.range 32) ⟨fun _ => none, fun _ => none⟩ 300
      (str "/m/b.mp3") 3] ≠ ([] : List Song) :=
  ⟨rfl, rfl, rfl, rfl, rfl, rfl, by decide⟩

/-- C2: for every streaming request whose identifier resolves through the
index to a path whose absolute cleaned form does not have the configured
root's absolute cleaned form as a prefix — the engine's notion of lying
outside the root — the response is 403 with no body, the file is neither
opened nor streamed (`didOpen = false`), and in particular the status is
never 200; a resolved path that is a directory is likewise rejected with
403 without opening it. -/
theorem spec_C2_path_containment (sha : Str → List Nat) (meta : MetaOracle)
    (st : ScannerState) (fs : ScanFS) (doneAt : Option Nat) (now : Int)
    (musicDirAbs : Str) (maxRangeSize : Int) (hfs : HFS) (id rangeHeader : Str)
    (songs : List Song) (song : Song)
    (hid : validID id = true)
    (hscan : (Scan sha meta st fs doneAt now).2 = .ok songs)
    (hfind : songs.find? (fun s => s.ID == id) = some song) :
    (¬ startsWith (hfs.abs song.FilePath) musicDirAbs = true →
      StreamAudio sha meta st fs doneAt now musicDirAbs maxRangeSize hfs id
        rangeHeader =
        { status := 403, contentRange := none, contentLength := none,
          body := [], didScan := true, didOpen := false }) ∧
    (∀ sz, hfs.stat (hfs.abs song.FilePath) = .info true sz →
      StreamAudio sha meta st fs doneAt now musicDirAbs maxRangeSize hfs id
        rangeHeader =
        { status := 403, contentRange := none, contentLength := none,
          body := [], didScan := true, didOpen := false }) ∧
    (403 : Nat) ≠ 200 := by
  unfold StreamAudio
  rw [if_neg (not_not_intro hid), hscan]
  dsimp only
  rw [hfind]
  dsimp only
  refine ⟨?_, ?_, by decide⟩
  · intro hout
    rw [if_pos hout]
    rfl
  · intro sz hstat
    by_cases hpre : startsWith (hfs.abs song.FilePath) musicDirAbs = true
    · rw [if_neg (not_not_intro hpre), hstat]
      rfl
    · rw [if_pos hpre]
      rfl

/-- Witness for C2: a cached song whose path is `/etc/passwd` under root
`/music` yields 403 without opening the file, and a song resolving to a
directory (under root `/`) also yields 403. -/
theorem spec_C2_path_containment_witness :
    StreamAudio (fun _ => List.range 32) ⟨fun _ => none, fun _ => none⟩
      ⟨str "/music", [str ".mp3"],
        [⟨str "aaaaaaaaaaaaaaaaaaaaaaaaaaaaaaaa", str "t", str "a", str "b", 0,
          str "/etc/passwd", str "passwd", 5, 0, str ""⟩],
        fun _ => none, 100, 5⟩
      ⟨true, []⟩ none 102 (str "/music") 100
      ⟨fun p => p, fun _ => .info false 10, fun _ => true, fun _ => []⟩
      (str "aaaaaaaaaaaaaaaaaaaaaaaaaaaaaaaa") [] =
      { status := 403, contentRange := none, contentLength := none,
        body := [], didScan := true, didOpen := false } ∧
    StreamAudio (fun _ => List.range 32) ⟨fun _ => none, fun _ => none⟩
      ⟨str "/", [str ".mp3"],
        [⟨str "aaaaaaaaaaaaaaaaaaaaaaaaaaaaaaaa", str "t", str "a", str "b", 0,
          str "/music/sub", str "sub", 5, 0, str ""⟩],
        fun _ => none, 100, 5⟩
      ⟨true, []⟩ none 102 (str "/") 100
      ⟨fun p => p, fun _ => .info true 10, fun _ => true, fun _ => []⟩
      (str "aaaaaaaaaaaaaaaaaaaaaaaaaaaaaaaa") [] =
      { status := 403, contentRange := none, contentLength := none,
        body := [], didScan := true, didOpen := false } := by
  constructor
  · exact (spec_C2_path_containment (fun _ => List.range 32)
      ⟨fun _ => none, fun _ => none⟩
      ⟨str "/music", [str ".mp3"],
        [⟨str "aaaaaaaaaaaaaaaaaaaaaaaaaaaaaaaa", str "t", str "a", str "b", 0,
          str "/etc/passwd", str "passwd", 5, 0, str ""⟩],
        fun _ => none, 100, 5⟩
      ⟨true, []⟩ none 102 (str "/music") 100
      ⟨fun p => p, fun _ => .info false 10, fun _ => true, fun _ => []⟩
      (str "aaaaaaaaaaaaaaaaaaaaaaaaaaaaaaaa") []
      [⟨str "aaaaaaaaaaaaaaaaaaaaaaaaaaaaaaaa", str "t", str "a", str "b", 0,
        str "/etc/passwd", str "passwd", 5, 0, str ""⟩]
      ⟨str "aaaaaaaaaaaaaaaaaaaaaaaaaaaaaaaa", str "t", str "a", str "b", 0,
        str "/etc/passwd", str "passwd", 5, 0, str ""⟩
      (by decide) rfl rfl).1 (by decide)
  · exact (spec_C2_path_containment (fun _ => List.range 32)
      ⟨fun _ => none, fun _ => none⟩
      ⟨str "/", [str ".mp3"],
        [⟨str "aaaaaaaaaaaaaaaaaaaaaaaaaaaaaaaa", str "t", str "a", str "b", 0,
          str "/music/sub", str "sub", 5, 0, str ""⟩],
        fun _ => none, 100, 5⟩
      ⟨true, []⟩ none 102 (str "/") 100
      ⟨fun p => p, fun _ => .info true 10, fun _ => true, fun _ => []⟩
      (str "aaaaaaaaaaaaaaaaaaaaaaaaaaaaaaaa") []
      [⟨str "aaaaaaaaaaaaaaaaaaaaaaaaaaaaaaaa", str "t", str "a", str "b", 0,
        str "/music/sub", str "sub", 5, 0, str ""⟩]
      ⟨str "aaaaaaaaaaaaaaaaaaaaaaaaaaaaaaaa", str "t", str "a", str "b", 0,
        str "/music/sub", str "sub", 5, 0, str ""⟩
      (by decide) rfl rfl).2.1 10 rfl

theorem serveRange_two_parts (fileSize maxRange : Int) (content : List Nat)
    (p0 p1 : Str) (hp0 : '-' ∉ p0) (hp1 : '-' ∉ p1) :
    serveRange fileSize content (str "bytes=" ++ (p0 ++ '-' :: p1)) maxRange =
      serveRangeParts fileSize content p0 p1 maxRange := by
  unfold serveRange
  rw [show str "bytes=" = ['b', 'y', 't', 'e', 's', '='] from rfl,
    trimLeading_append, splitChar_append_sep hp0, splitChar_of_not_mem hp1]

/-- C4: for a single-range request `bytes=<start>-<end>` on a file of
size `S`, a missing start defaults to 0 and a missing end to `S - 1`
(hypotheses `hs`/`he` state exactly that defaulting), and whenever
`0 ≤ start ≤ end < S` and the length is within the configured maximum,
the response is 206 with `Content-Range: bytes start-end/S`,
`Content-Length = end - start + 1`, and a body of exactly the bytes
`start` through `end` of the file. -/
theorem spec_C4_range_206 (content : List Nat) (size maxRange s e : Int)
    (p0 p1 : Str)
    (hsize : size = content.length)
    (hp0 : '-' ∉ p0) (hp1 : '-' ∉ p1)
    (hs : (p0 = [] ∧ s = 0) ∨ (p0 ≠ [] ∧ parseInt64 p0 = some s))
    (he : (p1 = [] ∧ e = size - 1) ∨ (p1 ≠ [] ∧ parseInt64 p1 = some e))
    (h0 : 0 ≤ s) (hse : s ≤ e) (hes : e < size)
    (hmax : e - s + 1 ≤ maxRange) :
    serveRange size content (str "bytes=" ++ (p0 ++ '-' :: p1)) maxRange =
      { status := 206, contentRange := some (.satisfied s e size),
        contentLength := some (e - s + 1),
        body := (content.drop s.toNat).take (e - s + 1).toNat } ∧
    ((content.drop s.toNat).take (e - s + 1).toNat).length = (e - s + 1).toNat := by
  constructor
  · rw [serveRange_two_parts size maxRange content p0 p1 hp0 hp1]
    unfold serveRangeParts
    have hstart : (if p0 = [] then some 0 else parseInt64 p0) = some s := by
      rcases hs with ⟨h1, h2⟩ | ⟨h1, h2⟩
      · rw [if_pos h1, h2]
      · rw [if_neg h1]; exact h2
    have hstop : (if p1 = [] then some (size - 1) else parseInt64 p1) = some e := by
      rcases he with ⟨h1, h2⟩ | ⟨h1, h2⟩
      · rw [if_pos h1, h2]
      · rw [if_neg h1]; exact h2
    rw [hstart]
    dsimp only
    rw [if_neg (by rintro ⟨-, hneg⟩; omega)]
    rw [hstop]
    dsimp only
    rw [if_neg (by rintro ⟨-, hneg⟩; omega)]
    rw [if_neg (show ¬(s < 0 ∨ e ≥ size ∨ s > e) by omega)]
    rw [if_neg (show ¬(e - s + 1 > maxRange) by omega)]
  · rw [List.length_take, List.length_drop]
    omega

/-- Witness for C4: `bytes=2-5` on a 10-byte file returns 206 with
exactly bytes 2..5, and `bytes=0-` (missing end) defaults the end to
`size - 1` and returns the whole file as a 206. -/
theorem spec_C4_range_206_witness :
    serveRange 10 [10, 11, 12, 13, 14, 15, 16, 17, 18, 19] (str "bytes=2-5")
      100 =
      { status := 206, contentRange := some (.satisfied 2 5 10),
        contentLength := some 4, body := [12, 13, 14, 15] } ∧
    serveRange 10 [10, 11, 12, 13, 14, 15, 16, 17, 18, 19] (str "bytes=0-")
      100 =
      { status := 206, contentRange := some (.satisfied 0 9 10),
        contentLength := some 10,
        body := [10, 11, 12, 13, 14, 15, 16, 17, 18, 19] } := by
  constructor
  · exact (spec_C4_range_206 [10, 11, 12, 13, 14, 15, 16, 17, 18, 19] 10 100
      2 5 (str "2") (str "5") (by decide) (by decide) (by decide)
      (Or.inr ⟨by decide, rfl⟩) (Or.inr ⟨by decide, rfl⟩)
      (by decide) (by decide) (by decide) (by decide)).1.trans (by decide)
  · exact (spec_C4_range_206 [10, 11, 12, 13, 14, 15, 16, 17, 18, 19] 10 100
      0 9 (str "0") [] (by decide) (by decide) (by decide)
      (Or.inr ⟨by decide, rfl⟩) (Or.inl ⟨rfl, by decide⟩)
      (by decide) (by decide) (by decide) (by decide)).1.trans (by decide)

/-- C5 counterexample: a range written with a negative numeric start,
`bytes=-1-2`, splits into three dash-parts and is answered 400 Bad
Request — not 416 and without a `Content-Range: bytes */size` header —
so the claim's inclusion of negatively-written ranges fails. -/
theorem spec_C5_negative_range_counterexample :
    serveRange 10 [0, 1, 2, 3, 4, 5, 6, 7, 8, 9] (str "bytes=-1-2") 100 =
      bad400 ∧
    (serveRange 10 [0, 1, 2, 3, 4, 5, 6, 7, 8, 9] (str "bytes=-1-2")
      100).status ≠ 416 ∧
    (serveRange 10 [0, 1, 2, 3, 4, 5, 6, 7, 8, 9] (str "bytes=-1-2")
      100).contentRange ≠ some (.unsatisfiable 10) :=
  ⟨rfl, by decide, by decide⟩

/-- C5 (amended): for a single range that parses under the dash split
(each part empty — with the code's defaults — or a valid non-negative
integer), `start < 0 ∨ end ≥ size ∨ start > end` yields 416 with
`Content-Range: bytes */size` and an empty body; a range expressed with
a negative numeric value, however, cannot survive the dash split and
yields 400 Bad Request instead. -/
theorem spec_C5_unsatisfiable_range (content : List Nat)
    (size maxRange s e : Int) (p0 p1 : Str)
    (hp0 : '-' ∉ p0) (hp1 : '-' ∉ p1)
    (hs : (p0 = [] ∧ s = 0) ∨ (p0 ≠ [] ∧ parseInt64 p0 = some s))
    (he : (p1 = [] ∧ e = size - 1) ∨ (p1 ≠ [] ∧ parseInt64 p1 = some e))
    (h416 : s < 0 ∨ e ≥ size ∨ s > e) :
    serveRange size content (str "bytes=" ++ (p0 ++ '-' :: p1)) maxRange =
      { status := 416, contentRange := some (.unsatisfiable size),
        contentLength := none, body := [] } ∧
    (∀ d0 d1 : Str, '-' ∉ d0 → '-' ∉ d1 →
      serveRange size content (str "bytes=" ++ ('-' :: (d0 ++ '-' :: d1)))
        maxRange = bad400) := by
  constructor
  · have hs0 : 0 ≤ s := by
      rcases hs with ⟨-, h2⟩ | ⟨-, h2⟩
      · omega
      · exact parseInt64_nonneg hp0 h2
    have he0 : p1 ≠ [] → 0 ≤ e := by
      intro h1ne
      rcases he with ⟨h1, -⟩ | ⟨-, h2⟩
      · exact absurd h1 h1ne
      · exact parseInt64_nonneg hp1 h2
    rw [serveRange_two_parts size maxRange content p0 p1 hp0 hp1]
    unfold serveRangeParts
    have hstart : (if p0 = [] then some 0 else parseInt64 p0) = some s := by
      rcases hs with ⟨h1, h2⟩ | ⟨h1, h2⟩
      · rw [if_pos h1, h2]
      · rw [if_neg h1]; exact h2
    have hstop : (if p1 = [] then some (size - 1) else parseInt64 p1) = some e := by
      rcases he with ⟨h1, h2⟩ | ⟨h1, h2⟩
      · rw [if_pos h1, h2]
      · rw [if_neg h1]; exact h2
    rw [hstart]
    dsimp only
    rw [if_neg (by rintro ⟨-, hneg⟩; omega)]
    rw [hstop]
    dsimp only
    rw [if_neg (by rintro ⟨h1ne, hneg⟩; have := he0 h1ne; omega)]
    rw [if_pos h416]
  · intro d0 d1 hd0 hd1
    unfold serveRange
    rw [show str "bytes=" = ['b', 'y', 't', 'e', 's', '='] from rfl,
      trimLeading_append, splitChar_cons, if_pos rfl,
      splitChar_append_sep hd0, splitChar_of_not_mem hd1]

/-- Witness for C5: `bytes=5-4` (start greater than end) on a 10-byte
file yields 416 with `Content-Range: bytes */10` and an empty body. -/
theorem spec_C5_unsatisfiable_range_witness :
    serveRange 10 [0, 1, 2, 3, 4, 5, 6, 7, 8, 9] (str "bytes=5-4") 100 =
      { status := 416, contentRange := some (.unsatisfiable 10),
        contentLength := none, body := [] } :=
  (spec_C5_unsatisfiable_range [0, 1, 2, 3, 4, 5, 6, 7, 8, 9] 10 100 5 4
    (str "5") (str "4") (by decide) (by decide)
    (Or.inr ⟨by decide, rfl⟩) (Or.inr ⟨by decide, rfl⟩)
    (Or.inr (Or.inr (by decide)))).1

/-- C7 counterexample: `Scan`'s cache-hit path returns a fresh slice of
the SAME `*Song` pointers (here the snapshot is the single pointer 0),
so mutating the title of the entry reached through the returned
collection changes what a later `lookup` observes — from `"x"` to
`"evil"` — contradicting the claim that every returned collection is a
defensive copy. -/
theorem spec_C7_cache_hit_alias_counterexample :
    scanCacheHitRefs ⟨[0], fun id => if id = str "aa" then some 0 else none⟩ =
      [0] ∧
    lookupTitle ⟨[⟨str "aa", str "x", str "a", str "b", 0, str "/m/a.mp3",
        str "a.mp3", 5, 0, str ".mp3"⟩]⟩
      ⟨[0], fun id => if id = str "aa" then some 0 else none⟩ (str "aa") =
      some (str "x") ∧
    lookupTitle (Heap.setTitle ⟨[⟨str "aa", str "x", str "a", str "b", 0,
        str "/m/a.mp3", str "a.mp3", 5, 0, str ".mp3"⟩]⟩ 0 (str "evil"))
      ⟨[0], fun id => if id = str "aa" then some 0 else none⟩ (str "aa") =
      some (str "evil") ∧
    str "evil" ≠ str "x" :=
  ⟨rfl, rfl, rfl, by decide⟩

/-- C7 (amended): `GetSongs` allocates struct copies, so mutating any
entry obtained from it changes neither what a later `list` nor a later
`lookup` observes of the internal snapshot; `Scan`'s cache-hit path, by
contrast, returns exactly the internal pointer slice (third conjunct),
so entries reached through it are shared with the snapshot. -/
theorem spec_C7_defensive_copies (h : Heap) (st : RefState) (r' : Ref)
    (t : Str)
    (hwf : ∀ r ∈ st.songRefs, r < h.data.length)
    (hidx : ∀ id r, st.songIndex id = some r → r < h.data.length)
    (hr' : r' ∈ (getSongsRefs h st).2) :
    internalTitles ((getSongsRefs h st).1.setTitle r' t) st =
      internalTitles h st ∧
    (∀ id, lookupTitle ((getSongsRefs h st).1.setTitle r' t) st id =
      lookupTitle h st id) ∧
    scanCacheHitRefs st = st.songRefs := by
  obtain ⟨⟨ext, hext⟩, hrefs⟩ := getSongsRefs_aux st.songRefs h []
  have hext' : (getSongsRefs h st).1.data = h.data ++ ext := hext
  have hr'ge : h.data.length ≤ r' := by
    rcases hrefs r' hr' with hin | hge
    · exact absurd hin (List.not_mem_nil r')
    · exact hge
  have hread : ∀ r, r < h.data.length →
      Heap.read ((getSongsRefs h st).1.setTitle r' t) r = Heap.read h r := by
    intro r hr
    show (updateAt r' _ (getSongsRefs h st).1.data).get? r = h.data.get? r
    rw [updateAt_get?_ne _ _ r' r (by omega), hext', List.get?_append hr]
  refine ⟨?_, ?_, rfl⟩
  · unfold internalTitles
    apply List.map_congr_left
    intro r hr
    rw [hread r (hwf r hr)]
  · intro id
    unfold lookupTitle
    cases hix : st.songIndex id with
    | none => rfl
    | some r =>
      show (Heap.read ((getSongsRefs h st).1.setTitle r' t) r).map Song.Title =
        (Heap.read h r).map Song.Title
      rw [hread r (hidx id r hix)]

/-- Witness for C7 at a concrete one-song heap: mutating the copy that
`GetSongs` hands out does not change later observations. -/
theorem spec_C7_defensive_copies_witness :
    internalTitles
      ((getSongsRefs ⟨[⟨str "aa", str "x", str "a", str "b", 0,
          str "/m/a.mp3", str "a.mp3", 5, 0, str ".mp3"⟩]⟩
        ⟨[0], fun id => if id = str "aa" then some 0 else none⟩).1.setTitle 1
        (str "evil"))
      ⟨[0], fun id => if id = str "aa" then some 0 else none⟩ =
      internalTitles ⟨[⟨str "aa", str "x", str "a", str "b", 0,
          str "/m/a.mp3", str "a.mp3", 5, 0, str ".mp3"⟩]⟩
        ⟨[0], fun id => if id = str "aa" then some 0 else none⟩ :=
  (spec_C7_defensive_copies
    ⟨[⟨str "aa", str "x", str "a", str "b", 0, str "/m/a.mp3",
      str "a.mp3", 5, 0, str ".mp3"⟩]⟩
    ⟨[0], fun id => if id = str "aa" then some 0 else none⟩ 1 (str "evil")
    (by decide)
    (fun id r hir => by
      have hir' : (if id = str "aa" then some 0 else none) = some r := hir
      show r < 1
      by_cases hid : id = str "aa"
      · subst hid
        rw [if_pos rfl, Option.some.injEq] at hir'
        subst hir'
        decide
      · rw [if_neg hid] at hir'
        exact absurd hir' (by simp))
    (by decide)).1

theorem Refresh_fst (sha : Str → List Nat) (meta : MetaOracle)
    (st : ScannerState) (fs : ScanFS) (doneAt : Option Nat) (now : Int) :
    (Refresh sha meta st fs doneAt now).1 =
      (scanInternal sha meta st fs doneAt now).1 := by
  unfold Refresh
  rcases h : scanInternal sha meta st fs doneAt now with ⟨st', r⟩
  cases r <;> rfl

theorem scanInternal_mutuallyConsistent (sha : Str → List Nat)
    (meta : MetaOracle) (st : ScannerState) (fs : ScanFS)
    (doneAt : Option Nat) (now : Int)
    (hdist : DistinctIds sha st.supportedFormats fs.walk) :
    MutuallyConsistent (scanInternal sha meta st fs doneAt now).1 := by
  unfold scanInternal
  by_cases hroot : fs.rootExists = true
  · rw [if_neg (not_not_intro hroot)]
    rcases hw : walkLoop sha meta now st.supportedFormats doneAt fs.walk 0 []
      (fun _ => none) with ⟨songs', index', err⟩
    have hcp : ConsPair songs' index' := by
      have h := walkLoop_consPair sha meta now st.supportedFormats doneAt
        fs.walk 0 [] (fun _ => none)
        ⟨fun s hs => absurd hs (List.not_mem_nil s),
         fun id s hidx => absurd hidx (by simp),
         List.Pairwise.nil⟩
        (by simpa [DistinctIds] using hdist)
      rw [hw] at h
      exact h
    obtain ⟨h1, h2, h3⟩ := hcp
    cases err with
    | none =>
      refine ⟨fun id s hidx => ?_, fun s hs => h1 s hs⟩
      obtain ⟨hm, hID⟩ := h2 id s hidx
      subst hID
      exact countP_id_eq_one h3 hm
    | some e =>
      refine ⟨fun id s hidx => ?_, fun s hs => h1 s hs⟩
      obtain ⟨hm, hID⟩ := h2 id s hidx
      subst hID
      exact countP_id_eq_one h3 hm
  · rw [if_pos hroot]
    exact ⟨fun id s hidx => absurd hidx (by simp),
      fun s hs => absurd hs (List.not_mem_nil s)⟩

/-- C9: under the precondition that no two indexed paths share the same
truncated-hash id, the snapshot and its id map stay mutually consistent
after every operation: after `Scan` and after `Refresh` (which replace
or keep the state), and — since `lookup`, `list` and `count` take the
state unchanged — after those reads as well (third conjunct). -/
theorem spec_C9_index_consistency (sha : Str → List Nat) (meta : MetaOracle)
    (st : ScannerState) (fs : ScanFS) (doneAt : Option Nat) (now : Int)
    (hst : MutuallyConsistent st)
    (hdist : DistinctIds sha st.supportedFormats fs.walk) :
    MutuallyConsistent (Scan sha meta st fs doneAt now).1 ∧
    MutuallyConsistent (Refresh sha meta st fs doneAt now).1 ∧
    MutuallyConsistent st := by
  refine ⟨?_, ?_, hst⟩
  · unfold Scan
    by_cases hv : cacheValid st now
    · rw [if_pos hv]
      exact hst
    · rw [if_neg hv, if_neg hv]
      exact scanInternal_mutuallyConsistent sha meta st fs doneAt now hdist
  · rw [Refresh_fst]
    exact scanInternal_mutuallyConsistent sha meta st fs doneAt now hdist

/-- Witness for C9: after scanning a library with one mp3 file, the id
of that file occurs exactly once in the snapshot sequence. -/
theorem spec_C9_index_consistency_witness :
    (Scan (fun _ => List.range 32) ⟨fun _ => none, fun _ => none⟩
      (NewMusicScanner (str "/m") [] 5)
      ⟨true, [.file (str "/m/a.mp3") 5]⟩ none 50).1.songs.countP
      (fun x => decide (x.ID =
        generateID (fun _ => List.range 32) (str "/m/a.mp3"))) = 1 := by
  have h := (spec_C9_index_consistency (fun _ => List.range 32)
    ⟨fun _ => none, fun _ => none⟩ (NewMusicScanner (str "/m") [] 5)
    ⟨true, [.file (str "/m/a.mp3") 5]⟩ none 50
    ⟨fun id s hidx => absurd hidx (by simp [NewMusicScanner]),
     fun s hs => absurd hs (List.not_mem_nil s)⟩
    (by
      show List.Pairwise _ _
      decide)).1
  exact h.1 (generateID (fun _ => List.range 32) (str "/m/a.mp3"))
    (NewSong (fun _ => List.range 32) ⟨fun _ => none, fun _ => none⟩ 50
      (str "/m/a.mp3") 5) rfl

theorem extSupported_mp3_iff (p : Str) :
    extSupported [str ".mp3"] p = true ↔ toLower (filepathExt p) = str ".mp3" := by
  show ([str ".mp3"].any
    fun supported => toLower (filepathExt p) == toLower supported) = true ↔ _
  rw [List.any_cons, List.any_nil, Bool.or_false,
    show toLower (str ".mp3") = str ".mp3" from rfl]
  exact beq_iff_eq

/-- C10: a scanner constructed with an empty supported-extension list is
the very same scanner as one constructed with `[".mp3"]` (first
conjunct), and such a scanner indexes precisely the files whose
lower-cased extension is `.mp3`: a successful scan produces exactly the
matched files in walk order (second conjunct), and a file is matched iff
it appears in the walk with lower-cased extension `.mp3` (third
conjunct). -/
theorem spec_C10_empty_formats_default (d : Str) (t : Int)
    (sha : Str → List Nat) (meta : MetaOracle) :
    NewMusicScanner d [] t = NewMusicScanner d [str ".mp3"] t ∧
    (∀ (fs : ScanFS) (doneAt : Option Nat) (now : Int) (songs : List Song),
      (scanInternal sha meta (NewMusicScanner d [] t) fs doneAt now).2 =
        .ok songs →
      songs = (matchedFiles [str ".mp3"] fs.walk).map
        (fun f => NewSong sha meta now f.1 f.2)) ∧
    (∀ (items : List WalkItem) (p : Str) (sz : Int),
      (p, sz) ∈ matchedFiles [str ".mp3"] items ↔
        (WalkItem.file p sz ∈ items ∧ toLower (filepathExt p) = str ".mp3")) := by
  refine ⟨rfl, ?_, ?_⟩
  · intro fs doneAt now songs h
    unfold scanInternal at h
    by_cases hroot : fs.rootExists = true
    · rw [if_neg (not_not_intro hroot)] at h
      rcases hw : walkLoop sha meta now
        (NewMusicScanner d [] t).supportedFormats doneAt fs.walk 0 []
        (fun _ => none) with ⟨songs', index', err⟩
      rw [hw] at h
      cases err with
      | some e =>
        dsimp only at h
        exact absurd h (by simp)
      | none =>
        dsimp only at h
        rw [Except.ok.injEq] at h
        subst h
        have hsongs := walkLoop_ok_songs sha meta now
          (NewMusicScanner d [] t).supportedFormats doneAt fs.walk 0 []
          (fun _ => none) songs' index' hw
        rw [hsongs]
        exact List.nil_append _
    · rw [if_pos hroot] at h
      exact absurd h (by simp)
  · intro items p sz
    unfold matchedFiles
    rw [List.mem_filterMap]
    constructor
    · rintro ⟨item, hitem, hf⟩
      cases item with
      | file p' sz' =>
        dsimp only at hf
        by_cases hsup : extSupported [str ".mp3"] p' = true
        · rw [if_pos hsup, Option.some.injEq, Prod.mk.injEq] at hf
          obtain ⟨hp, hsz⟩ := hf
          subst hp
          subst hsz
          exact ⟨hitem, (extSupported_mp3_iff p').mp hsup⟩
        · rw [if_neg hsup] at hf
          exact absurd hf (by simp)
      | dir p' => exact absurd hf (by simp)
      | fail => exact absurd hf (by simp)
    · rintro ⟨hitem, hext⟩
      refine ⟨WalkItem.file p sz, hitem, ?_⟩
      dsimp only
      rw [if_pos ((extSupported_mp3_iff p).mpr hext)]

/-- Witness for C10: scanning a directory holding `a.mp3` and `b.txt`
with an empty format list indexes exactly the matched mp3 files. -/
theorem spec_C10_empty_formats_default_witness :
    (scanInternal (fun _ => List.range 32) ⟨fun _ => none, fun _ => none⟩
      (NewMusicScanner (str "/m") [] 5)
      ⟨true, [.file (str "/m/a.mp3") 11, .file (str "/m/b.txt") 4]⟩
      none 7).2 =
      .ok ((matchedFiles [str ".mp3"]
        [.file (str "/m/a.mp3") 11, .file (str "/m/b.txt") 4]).map
        (fun f => NewSong (fun _ => List.range 32)
          ⟨fun _ => none, fun _ => none⟩ 7 f.1 f.2)) := by
  have hok : (scanInternal (fun _ => List.range 32)
      ⟨fun _ => none, fun _ => none⟩ (NewMusicScanner (str "/m") [] 5)
      ⟨true, [.file (str "/m/a.mp3") 11, .file (str "/m/b.txt") 4]⟩
      none 7).2 =
      .ok ((scanInternal (fun _ => List.range 32)
        ⟨fun _ => none, fun _ => none⟩ (NewMusicScanner (str "/m") [] 5)
        ⟨true, [.file (str "/m/a.mp3") 11, .file (str "/m/b.txt") 4]⟩
        none 7).2.toOption.getD []) := rfl
  have h := (spec_C10_empty_formats_default (str "/m") 5
    (fun _ => List.range 32) ⟨fun _ => none, fun _ => none⟩).2.1
    ⟨true, [.file (str "/m/a.mp3") 11, .file (str "/m/b.txt") 4]⟩ none 7
    _ hok
  exact hok.trans (congrArg Except.ok h)
